import Mathlib

/-!
Verification of the TimeMate timer engine, embedded from
`src/modules/timemate.py` (the module behind the `timemate` console entry
point; `src/modules/database.py` is an earlier near-duplicate revision of the
same file).  Machine integers are modelled as `Int`; Python's floor division
`//` and `%` on a positive divisor coincide with `Int.ediv` / `Int.emod`.
SQL `NULL`-able columns are modelled as `Option Int`.
-/

namespace TimeMate

/-- The `status` column of the `Times` table:
`CHECK(status IN ('paused', 'running', 'inactive'))`. -/
inductive Status where
  | paused
  | running
  | inactive
deriving DecidableEq, Repr

/-- One row of the `Times` table:
`(time_id, account_id, memo, status, timedelta, datetime)`.
`timedelta` is the accumulated seconds (`NOT NULL`), `datetime` the nullable
recorded start timestamp (`running_since`). -/
structure Timer where
  time_id : Nat
  account_id : Nat
  memo : String
  status : Status
  timedelta : Int
  datetime : Option Int
deriving DecidableEq, Repr

/-- The `Times` table together with the next `AUTOINCREMENT` id.  Rows are
kept in `time_id` order (every query in the source orders by `time_id`). -/
structure Store where
  timers : List Timer
  nextId : Nat
deriving DecidableEq, Repr

/-! ## Duration formatting (`format_hours_minutes_seconds`,
`format_hours_and_tenths` in `timemate.py` lines 114-165) -/

/-- The `(hours, minutes, seconds)` triple computed by
`format_hours_minutes_seconds`: all three start at `0`; when `total_seconds`
is truthy, `seconds = total_seconds`; when `seconds >= 60` split into
minutes and remainder, rounding the minute count up when the remainder is
at least 30; when `minutes >= 60` split into hours and remainder. -/
def hmsParts (total_seconds : Int) : Int × Int × Int :=
  if total_seconds ≠ 0 then
    let p1 : Int × Int :=
      if total_seconds ≥ 60 then
        let m := total_seconds / 60
        let s := total_seconds % 60
        (if s ≥ 30 then m + 1 else m, s)
      else
        (0, total_seconds)
    let p2 : Int × Int :=
      if p1.1 ≥ 60 then (p1.1 / 60, p1.1 % 60) else (0, p1.1)
    (p2.1, p2.2, p1.2)
  else
    (0, 0, 0)

/-- The number of seconds the string rendered from `hmsParts` denotes:
`hours * 3600 + minutes * 60 + seconds`. -/
def hmsDenoted (total_seconds : Int) : Int :=
  let p := hmsParts total_seconds
  p.1 * 3600 + p.2.1 * 60 + p.2.2

/-- `format_hours_minutes_seconds`: render the `hmsParts` components,
omitting zero components (Python truthiness), with `"0m"` when all
components are omitted. -/
def format_hours_minutes_seconds (total_seconds : Int) : String :=
  let p := hmsParts total_seconds
  let parts :=
    (if p.1 ≠ 0 then [toString p.1 ++ "h"] else []) ++
    (if p.2.1 ≠ 0 then [toString p.2.1 ++ "m"] else []) ++
    (if p.2.2 ≠ 0 then [toString p.2.2 ++ "s"] else [])
  String.join (if parts = [] then ["0m"] else parts)

/-- Integer ceiling division for a positive divisor, the value
`math.ceil(minutes/round_up)` computes (exact at the magnitudes involved). -/
def ceilDiv (m r : Int) : Int := -((-m) / r)

/-- `format_hours_and_tenths`: for `round_up <= 1` delegate to
`format_hours_minutes_seconds`; otherwise round the seconds up to whole
minutes, and when the result is truthy render
`f"{math.ceil(minutes/round_up)/(60/round_up)}h"`, else `"0.0h"`.
The float rendering is modelled for granularity `round_up = 6` (the one the
spec exercises), where `60/round_up = 10` and Python prints `ticks/10` with
a single fractional digit. -/
def format_hours_and_tenths (total_seconds : Int) (round_up : Int) : String :=
  if round_up ≤ 1 then
    format_hours_minutes_seconds total_seconds
  else
    let minutes0 := total_seconds / 60
    let minutes := if total_seconds % 60 ≠ 0 then minutes0 + 1 else minutes0
    if minutes ≠ 0 then
      let ticks := ceilDiv minutes round_up
      toString (ticks / 10) ++ "." ++ toString (ticks % 10) ++ "h"
    else
      "0.0h"

/-! ## The timer engine (`timer_start`, `timer_pause`, `add_timer`,
`populate`, `archive_timers` in `timemate.py`) -/

/-- The unconditional statement at the top of `timer_start`:
`UPDATE Times SET status = 'paused', timedelta = timedelta + (? - datetime),
datetime = ? WHERE status = 'running'` with both parameters `now`.
A running row with `NULL` `datetime` makes the statement fail (NULL
propagates into the `NOT NULL` column `timedelta`), modelled as `none`. -/
def stopRunningRow (now : Int) (t : Timer) : Option Timer :=
  if t.status = Status.running then
    match t.datetime with
    | some d =>
        some { t with status := Status.paused,
                      timedelta := t.timedelta + (now - d),
                      datetime := some now }
    | none => none
  else
    some t

/-- `stopRunningRow` applied to every row of the table. -/
def stopRunningRows (now : Int) : List Timer → Option (List Timer)
  | [] => some []
  | t :: ts =>
    match stopRunningRow now t, stopRunningRows now ts with
    | some t', some ts' => some (t' :: ts')
    | _, _ => none

/-- Total description of `stopRunningRow` on rows where a running row
always carries a timestamp (the only rows on which the statement
succeeds). -/
def stopRunningView (now : Int) (t : Timer) : Timer :=
  if t.status = Status.running then
    { t with status := Status.paused,
             timedelta := t.timedelta + (now - t.datetime.getD 0),
             datetime := some now }
  else
    t

/-- Python truthiness test `if start_time and start_time < today:` on the
nullable `datetime` column (`None` and `0` are both falsy). -/
def staleStart (d : Option Int) (today : Int) : Bool :=
  match d with
  | some v => decide (v ≠ 0) && decide (v < today)
  | none => false

/-- What a `timer_start` call reports. -/
inductive StartOutcome where
  /-- `pos_to_id.get(position)` was falsy: prints `Invalid position!`. -/
  | invalidPosition
  /-- the id resolved but `SELECT ... WHERE time_id = ?` returned no row;
  the code silently does nothing further. -/
  | missingRow
  /-- stale-timer rollover: a fresh running Timer `newId` was inserted and
  the original `originalId` was marked inactive. -/
  | rolledOver (originalId newId : Nat)
  /-- the timer was (re)started in place. -/
  | resumed (id : Nat)
deriving DecidableEq, Repr

/-- `timer_start` (`timemate.py` lines 360-439).  `timeId` is the value of
`pos_to_id.get(position)`.  `today` is the midnight timestamp of the current
day.  The statements run inside one committed transaction; `none` means a
statement raised, in which case nothing is committed. -/
def timer_start (s : Store) (timeId : Option Nat) (now today : Int) :
    Option (Store × StartOutcome) :=
  match stopRunningRows now s.timers with
  | none => none
  | some ts =>
    let tid := timeId.getD 0
    if tid ≠ 0 then
      match ts.find? (fun t => t.time_id == tid) with
      | some row =>
        if staleStart row.datetime today then
          let newTimer : Timer :=
            { time_id := s.nextId, account_id := row.account_id,
              memo := row.memo, status := Status.running,
              timedelta := 0, datetime := some now }
          some ({ timers :=
                    (ts.map fun t =>
                      if t.time_id == tid then
                        { t with status := Status.inactive }
                      else t) ++ [newTimer],
                  nextId := s.nextId + 1 },
                StartOutcome.rolledOver tid s.nextId)
        else
          some ({ timers :=
                    ts.map fun t =>
                      if t.time_id == tid then
                        { t with status := Status.running,
                                 datetime := some now }
                      else t,
                  nextId := s.nextId },
                StartOutcome.resumed tid)
      | none => some ({ timers := ts, nextId := s.nextId },
                      StartOutcome.missingRow)
    else
      some ({ timers := ts, nextId := s.nextId },
            StartOutcome.invalidPosition)

/-- What a `timer_pause` call reports. -/
inductive PauseOutcome where
  /-- `pos_to_id.get(position)` was falsy: prints `Invalid position!`. -/
  | invalidPosition
  /-- the id resolved but the `SELECT` returned no row. -/
  | missingRow
  /-- the row's `datetime` is `NULL`: prints `already paused`, no change. -/
  | alreadyPaused (id : Nat)
  /-- the row was updated: prints `Timer stopped!`. -/
  | stopped (id : Nat)
deriving DecidableEq, Repr

/-- `timer_pause` (`timemate.py` lines 442-486).  The guard is
`if start_time is None` — the row's `status` is never consulted; a non-null
`datetime` always triggers
`UPDATE Times SET status = 'paused', timedelta = timedelta + ?,
datetime = ? WHERE time_id = ?` with `elapsed = now - start_time`. -/
def timer_pause (s : Store) (timeId : Option Nat) (now : Int) :
    Store × PauseOutcome :=
  let tid := timeId.getD 0
  if tid ≠ 0 then
    match s.timers.find? (fun t => t.time_id == tid) with
    | some row =>
      match row.datetime with
      | none => (s, PauseOutcome.alreadyPaused tid)
      | some start_time =>
        let elapsed := now - start_time
        ({ s with timers :=
             s.timers.map fun t =>
               if t.time_id == tid then
                 { t with status := Status.paused,
                          timedelta := t.timedelta + elapsed,
                          datetime := some now }
               else t },
         PauseOutcome.stopped tid)
    | none => (s, PauseOutcome.missingRow)
  else
    (s, PauseOutcome.invalidPosition)

/-- `add_timer` (`timemate.py` lines 211-272): inserts
`(account_id, memo, 'paused', 0, now)` — a paused row whose `datetime` is
the (non-null) creation instant. -/
def add_timer (s : Store) (account_id : Nat) (memo : String) (now : Int) :
    Store :=
  { timers := s.timers ++
      [{ time_id := s.nextId, account_id := account_id, memo := memo,
         status := Status.paused, timedelta := 0, datetime := some now }],
    nextId := s.nextId + 1 }

/-- One resolved row of bulk import `populate` (`timemate.py` lines
861-881): inserts `(account_id, memo, 'paused', timedelta, datetime)`. -/
def populate_time (s : Store) (account_id : Nat) (memo : String)
    (timedelta : Int) (datetime_val : Option Int) : Store :=
  { timers := s.timers ++
      [{ time_id := s.nextId, account_id := account_id, memo := memo,
         status := Status.paused, timedelta := timedelta,
         datetime := datetime_val }],
    nextId := s.nextId + 1 }

/-- One row of `archive_timers` (`timemate.py` lines 54-79):
`UPDATE Times SET status = 'inactive' WHERE datetime < ? AND
status != 'inactive'` (a `NULL` `datetime` never satisfies the filter). -/
def archive_row (midnight : Int) (t : Timer) : Timer :=
  match t.datetime with
  | some d =>
      if d < midnight ∧ t.status ≠ Status.inactive then
        { t with status := Status.inactive }
      else t
  | none => t

/-- `archive_timers`: the batch update applied to every row. -/
def archive_timers (s : Store) (midnight : Int) : Store :=
  { s with timers := s.timers.map (archive_row midnight) }

/-- Store states reachable from the fresh database by the modelled
operations (a `timer_start` whose transaction raises commits nothing, so
only completed calls appear). -/
inductive Reachable : Store → Prop where
  | empty : Reachable { timers := [], nextId := 1 }
  | add_timer (s : Store) (a : Nat) (m : String) (now : Int) :
      Reachable s → Reachable (add_timer s a m now)
  | populate (s : Store) (a : Nat) (m : String) (td : Int)
      (d : Option Int) : Reachable s → Reachable (populate_time s a m td d)
  | start (s s' : Store) (tid : Option Nat) (now today : Int)
      (o : StartOutcome) : Reachable s →
      timer_start s tid now today = some (s', o) → Reachable s'
  | pause (s s' : Store) (tid : Option Nat) (now : Int) (o : PauseOutcome) :
      Reachable s → timer_pause s tid now = (s', o) → Reachable s'
  | archive (s : Store) (midnight : Int) :
      Reachable s → Reachable (archive_timers s midnight)

/-- Number of rows with `status = 'running'`. -/
def runningCount (l : List Timer) : Nat :=
  l.countP fun t => t.status == Status.running

/-- The half of the spec's `running_since` invariant the code maintains:
every running row carries a (non-null) timestamp. -/
def RunningHasStart (s : Store) : Prop :=
  ∀ t ∈ s.timers, t.status = Status.running → t.datetime.isSome

/-! ## Duration sums and weekly reports (`report_week`, `report_account`) -/

/-- The optional `T.account_id = ?` filter of `report_account`. -/
def acctFilter (acct : Option Nat) (t : Timer) : Bool :=
  match acct with
  | some a => t.account_id == a
  | none => true

/-- The SQL filter `T.datetime BETWEEN ? AND ?`: inclusive on both ends;
a `NULL` `datetime` never satisfies it. -/
def betweenFilter (lo hi : Int) (t : Timer) : Bool :=
  match t.datetime with
  | some d => decide (lo ≤ d) && decide (d ≤ hi)
  | none => false

/-- `SELECT SUM(T.timedelta) FROM Times T WHERE [T.account_id = ? AND]
T.datetime BETWEEN ? AND ?`, with the `or 0` that turns the `NULL` sum of
an empty selection into `0` (`timemate.py` lines 502-511, 766-775). -/
def sum_durations (acct : Option Nat) (lo hi : Int) : List Timer → Int
  | [] => 0
  | t :: ts =>
    (if acctFilter acct t && betweenFilter lo hi t then t.timedelta else 0) +
      sum_durations acct lo hi ts

/-- `sumDurations` as the spec's words state it: sum of
`accumulated_seconds` over timers whose recorded start timestamp lies in
the half-open interval `[startTs, endTs)` (a timer starting exactly at
`endTs` excluded) and whose account matches when one is provided. -/
def sumDurationsHalfOpenSpec (acct : Option Nat) (lo hi : Int)
    (ts : List Timer) : Int :=
  ((ts.filter fun t =>
      acctFilter acct t &&
        match t.datetime with
        | some d => decide (lo ≤ d) && decide (d < hi)
        | none => false).map Timer.timedelta).sum

/-- `sumDurations` amended to what the SQL does: the interval is closed on
both ends (`BETWEEN` is inclusive), everything else as the spec says —
stated as a filter-then-sum over the selected timers. -/
def sumDurationsClosedSpec (acct : Option Nat) (lo hi : Int)
    (ts : List Timer) : Int :=
  ((ts.filter fun t => acctFilter acct t && betweenFilter lo hi t).map
    Timer.timedelta).sum

/-- Python's `date.weekday()` (Monday = 0) for a date given as its midnight
epoch timestamp: epoch day 0 (1970-01-01) was a Thursday, weekday 3. -/
def pyWeekday (d : Int) : Int := (d / 86400 + 3) % 7

/-- `week_start = report_date - timedelta(days=report_date.weekday())`
(`timemate.py` line 499). -/
def weekStartOf (reportDate : Int) : Int :=
  reportDate - 86400 * pyWeekday reportDate

/-- Total for day `i` of the weekly report:
`T.datetime BETWEEN day AND day + 1 day` (both midnights included). -/
def day_total (weekStart i : Int) (ts : List Timer) : Int :=
  sum_durations none (weekStart + 86400 * i) (weekStart + 86400 * (i + 1)) ts

/-- The week total of `report_week`:
`T.datetime BETWEEN week_start AND week_end` with
`week_end = week_start + 6 days`. -/
def week_total (reportDate : Int) (ts : List Timer) : Int :=
  sum_durations none (weekStartOf reportDate)
    (weekStartOf reportDate + 6 * 86400) ts

/-- The daily breakdown of `report_week`: one `(day index, total)` entry
per day of the week, skipping days whose total is `0`
(`if day_total == 0: continue`). -/
def week_breakdown (reportDate : Int) (ts : List Timer) :
    List (Nat × Int) :=
  (List.range 7).filterMap fun (i : Nat) =>
    let dt := day_total (weekStartOf reportDate) i ts
    if dt = 0 then none else some (i, dt)

/-! ## Helper lemmas -/

theorem stopRunningRow_not_running {now : Int} {t t' : Timer}
    (h : stopRunningRow now t = some t') : t'.status ≠ Status.running := by
  unfold stopRunningRow at h
  by_cases hr : t.status = Status.running
  · rw [if_pos hr] at h
    cases hd : t.datetime with
    | some d => rw [hd] at h; cases h; simp
    | none => rw [hd] at h; cases h
  · rw [if_neg hr] at h
    cases h
    exact hr

theorem stopRunningRow_id {now : Int} {t t' : Timer}
    (h : stopRunningRow now t = some t') : t'.time_id = t.time_id := by
  unfold stopRunningRow at h
  by_cases hr : t.status = Status.running
  · rw [if_pos hr] at h
    cases hd : t.datetime with
    | some d => rw [hd] at h; cases h; rfl
    | none => rw [hd] at h; cases h
  · rw [if_neg hr] at h
    cases h
    rfl

theorem stopRunningRows_not_running {now : Int} :
    ∀ {l ts : List Timer}, stopRunningRows now l = some ts →
      ∀ t ∈ ts, t.status ≠ Status.running := by
  intro l
  induction l with
  | nil =>
    intro ts h t ht
    cases h
    cases ht
  | cons a l ih =>
    intro ts h t ht
    unfold stopRunningRows at h
    cases ha : stopRunningRow now a with
    | none => rw [ha] at h; cases h
    | some a' =>
      cases hl : stopRunningRows now l with
      | none => rw [ha, hl] at h; cases h
      | some l' =>
        rw [ha, hl] at h
        cases h
        cases ht with
        | head => exact stopRunningRow_not_running ha
        | tail _ ht' => exact ih hl t ht'

theorem stopRunningRows_ids {now : Int} :
    ∀ {l ts : List Timer}, stopRunningRows now l = some ts →
      ts.map Timer.time_id = l.map Timer.time_id := by
  intro l
  induction l with
  | nil => intro ts h; cases h; rfl
  | cons a l ih =>
    intro ts h
    unfold stopRunningRows at h
    cases ha : stopRunningRow now a with
    | none => rw [ha] at h; cases h
    | some a' =>
      cases hl : stopRunningRows now l with
      | none => rw [ha, hl] at h; cases h
      | some l' =>
        rw [ha, hl] at h
        cases h
        simp [stopRunningRow_id ha, ih hl]

theorem stopRunningRows_eq_map {now : Int} :
    ∀ {l : List Timer},
      (∀ t ∈ l, t.status = Status.running → t.datetime.isSome) →
      stopRunningRows now l = some (l.map (stopRunningView now)) := by
  intro l
  induction l with
  | nil => intro _; rfl
  | cons a l ih =>
    intro h
    have ha : stopRunningRow now a = some (stopRunningView now a) := by
      unfold stopRunningRow stopRunningView
      by_cases hr : a.status = Status.running
      · rw [if_pos hr, if_pos hr]
        have hs := h a (List.mem_cons_self a l) hr
        cases hd : a.datetime with
        | some d => simp [hd]
        | none => rw [hd] at hs; cases hs
      · rw [if_neg hr, if_neg hr]
    have hl := ih fun t ht => h t (List.mem_cons_of_mem a ht)
    unfold stopRunningRows
    rw [ha, hl]
    rfl

theorem stopRunningView_of_not_running {now : Int} {t : Timer}
    (h : t.status ≠ Status.running) : stopRunningView now t = t := by
  unfold stopRunningView
  rw [if_neg h]

theorem find?_time_id_of_nodup {l : List Timer} {t : Timer}
    (hd : (l.map Timer.time_id).Nodup) (hm : t ∈ l) :
    l.find? (fun x => x.time_id == t.time_id) = some t := by
  induction l with
  | nil => cases hm
  | cons a l ih =>
    rw [List.map_cons, List.nodup_cons] at hd
    cases hm with
    | head =>
      rw [List.find?_cons_of_pos]
      simp
    | tail _ hm' =>
      have hne : a.time_id ≠ t.time_id := by
        intro he
        exact hd.1 (he ▸ List.mem_map_of_mem Timer.time_id hm')
      rw [List.find?_cons_of_neg]
      · exact ih hd.2 hm'
      · simp [hne]

theorem countP_time_id_le_one {tid : Nat} :
    ∀ {l : List Timer}, (l.map Timer.time_id).Nodup →
      l.countP (fun t => t.time_id == tid) ≤ 1 := by
  intro l
  induction l with
  | nil => intro _; simp
  | cons a l ih =>
    intro hd
    rw [List.map_cons, List.nodup_cons] at hd
    by_cases h : a.time_id = tid
    · rw [List.countP_cons_of_pos]
      · have hz : l.countP (fun t => t.time_id == tid) = 0 := by
          rw [List.countP_eq_zero]
          intro b hb hbe
          have hbid : b.time_id = tid := by simpa using hbe
          apply hd.1
          rw [h, ← hbid]
          exact List.mem_map_of_mem Timer.time_id hb
        omega
      · simp [h]
    · rw [List.countP_cons_of_neg]
      · exact ih hd.2
      · simp [h]

theorem stopRunningView_id (now : Int) (t : Timer) :
    (stopRunningView now t).time_id = t.time_id := by
  unfold stopRunningView
  split <;> rfl

theorem map_view_ids (now : Int) :
    ∀ l : List Timer,
      (l.map (stopRunningView now)).map Timer.time_id = l.map Timer.time_id := by
  intro l
  induction l with
  | nil => rfl
  | cons a l ih => simp [stopRunningView_id, ih]

theorem runningCount_eq_zero {l : List Timer}
    (h : ∀ t ∈ l, t.status ≠ Status.running) : runningCount l = 0 := by
  rw [runningCount, List.countP_eq_zero]
  intro t ht hc
  exact h t ht (by simpa using hc)

/-! ## Claims about the duration formatters -/

/-- C9: `format_hours_and_tenths` with a 6-minute round-up granularity
renders 359 seconds (≈ 5.98 minutes, rounded up to the next 6-minute tick)
as `0.1h`, and renders 0 seconds as `0.0h`. -/
theorem format_hours_tenths_rounding :
    format_hours_and_tenths 359 6 = "0.1h" ∧
    format_hours_and_tenths 0 6 = "0.0h" := by
  constructor <;> rfl

/-- C10: for every `total_seconds ≥ 90` whose remainder modulo 60 is at
least 30, `format_hours_minutes_seconds` rounds the minute count up by one
and still appends the leftover seconds, so the rendered components denote
`total_seconds + 60` — strictly more than `total_seconds`; e.g. 95 seconds
renders as `2m35s`, i.e. 155 seconds. -/
theorem hms_rounds_up_and_appends_seconds :
    ∀ total_seconds : Int, 90 ≤ total_seconds →
      30 ≤ total_seconds % 60 →
      hmsDenoted total_seconds = total_seconds + 60 ∧
      total_seconds < hmsDenoted total_seconds ∧
      (hmsParts total_seconds).2.2 = total_seconds % 60 ∧
      format_hours_minutes_seconds 95 = "2m35s" := by
  intro t h90 h30
  have h1 : t ≠ 0 := by omega
  have h2 : t ≥ 60 := by omega
  have h3 : t % 60 ≥ 30 := h30
  have key : hmsDenoted t = t + 60 ∧ (hmsParts t).2.2 = t % 60 := by
    simp only [hmsDenoted, hmsParts]
    rw [if_pos h1, if_pos h2, if_pos h3]
    by_cases h4 : t / 60 + 1 ≥ 60
    · rw [if_pos h4]
      constructor <;> simp <;> omega
    · rw [if_neg h4]
      constructor <;> simp <;> omega
  exact ⟨key.1, by omega, key.2, by decide⟩

/-- Witness for C10 at 95 seconds: the components denote 155 = 95 + 60 and
the rendered string is `2m35s`. -/
theorem hms_rounds_up_and_appends_seconds_witness :
    hmsDenoted 95 = 95 + 60 ∧ (95 : Int) < hmsDenoted 95 ∧
    (hmsParts 95).2.2 = (95 : Int) % 60 ∧
    format_hours_minutes_seconds 95 = "2m35s" :=
  hms_rounds_up_and_appends_seconds 95 (by decide) (by decide)

/-! ## Claims about `timer_start` and `timer_pause` -/

/-- C2: for every store (rows have distinct primary keys) and every
`timer_start` call that completes — any timer reference, resuming in place
or rolling over — at most one Timer in the store is `running` afterwards. -/
theorem timer_start_at_most_one_running (s : Store) (timeId : Option Nat)
    (now today : Int) (s' : Store) (o : StartOutcome)
    (hnd : (s.timers.map Timer.time_id).Nodup)
    (h : timer_start s timeId now today = some (s', o)) :
    runningCount s'.timers ≤ 1 := by
  unfold timer_start at h
  cases hstop : stopRunningRows now s.timers with
  | none =>
    simp only [hstop] at h
    cases h
  | some ts =>
    simp only [hstop] at h
    have hts : ∀ t ∈ ts, t.status ≠ Status.running :=
      stopRunningRows_not_running hstop
    have hznd : (ts.map Timer.time_id).Nodup := by
      rw [stopRunningRows_ids hstop]
      exact hnd
    have hzero : runningCount ts = 0 := runningCount_eq_zero hts
    by_cases htid : timeId.getD 0 ≠ 0
    · rw [if_pos htid] at h
      cases hfind : ts.find? (fun t => t.time_id == timeId.getD 0) with
      | none =>
        simp only [hfind, Option.some.injEq, Prod.mk.injEq] at h
        obtain ⟨hs', -⟩ := h
        subst hs'
        show runningCount ts ≤ 1
        omega
      | some row =>
        simp only [hfind] at h
        by_cases hstale : staleStart row.datetime today = true
        · rw [if_pos hstale] at h
          simp only [Option.some.injEq, Prod.mk.injEq] at h
          obtain ⟨hs', -⟩ := h
          subst hs'
          show runningCount
            ((ts.map fun t =>
                if t.time_id == timeId.getD 0 then
                  { t with status := Status.inactive }
                else t) ++ [_]) ≤ 1
          rw [runningCount, List.countP_append]
          have h1 :
              (ts.map fun t =>
                if t.time_id == timeId.getD 0 then
                  { t with status := Status.inactive }
                else t).countP (fun t => t.status == Status.running) = 0 := by
            rw [List.countP_eq_zero]
            intro t ht hc
            obtain ⟨a, ha, rfl⟩ := List.mem_map.mp ht
            by_cases hm : a.time_id == timeId.getD 0
            · simp [hm] at hc
            · simp [hm] at hc
              exact hts a ha hc
          rw [h1]
          simp
        · rw [if_neg hstale] at h
          simp only [Option.some.injEq, Prod.mk.injEq] at h
          obtain ⟨hs', -⟩ := h
          subst hs'
          show runningCount
            (ts.map fun t =>
              if t.time_id == timeId.getD 0 then
                { t with status := Status.running, datetime := some now }
              else t) ≤ 1
          rw [runningCount, List.countP_map]
          have hmono :
              ts.countP
                ((fun t => t.status == Status.running) ∘ fun t =>
                  if t.time_id == timeId.getD 0 then
                    { t with status := Status.running, datetime := some now }
                  else t) ≤
              ts.countP (fun t => t.time_id == timeId.getD 0) := by
            apply List.countP_mono_left
            intro a ha hc
            by_cases hm : a.time_id == timeId.getD 0
            · exact hm
            · simp [Function.comp, hm] at hc
              exact absurd hc (hts a ha)
          exact le_trans hmono (countP_time_id_le_one hznd)
    · rw [if_neg htid] at h
      simp only [Option.some.injEq, Prod.mk.injEq] at h
      obtain ⟨hs', -⟩ := h
      subst hs'
      show runningCount ts ≤ 1
      omega

/-- Witness for C2: a concrete completed `start` call on a store holding
one running timer, after which exactly one timer is running. -/
theorem timer_start_at_most_one_running_witness :
    runningCount
      ({ timers := [{ time_id := 1, account_id := 1, memo := "",
                      status := Status.running, timedelta := 100,
                      datetime := some 200 }],
         nextId := 2 } : Store).timers ≤ 1 :=
  timer_start_at_most_one_running
    ⟨[⟨1, 1, "", Status.running, 0, some 100⟩], 2⟩ (some 1) 200 0
    ⟨[⟨1, 1, "", Status.running, 100, some 200⟩], 2⟩
    (StartOutcome.resumed 1) (by decide) (by decide)

/-- C3: pausing a running timer with `running_since = st` at time `now`
adds `now - st` to its accumulated seconds, sets its status to `paused`,
and retains the pause instant `now` in `datetime` (not cleared to null). -/
theorem timer_pause_running_updates (s : Store) (t : Timer) (st now : Int)
    (hmem : t ∈ s.timers)
    (hnd : (s.timers.map Timer.time_id).Nodup)
    (hid : t.time_id ≠ 0)
    (hrun : t.status = Status.running)
    (hst : t.datetime = some st) :
    ∃ s', timer_pause s (some t.time_id) now
        = (s', PauseOutcome.stopped t.time_id) ∧
      ({ t with status := Status.paused,
                timedelta := t.timedelta + (now - st),
                datetime := some now } : Timer) ∈ s'.timers := by
  simp only [timer_pause, Option.getD_some]
  rw [if_pos hid]
  simp only [find?_time_id_of_nodup hnd hmem, hst]
  refine ⟨_, rfl, ?_⟩
  apply List.mem_map.mpr
  exact ⟨t, hmem, by simp⟩

/-- Witness for C3 at a concrete running timer. -/
theorem timer_pause_running_updates_witness :
    ∃ s', timer_pause ⟨[⟨1, 1, "", Status.running, 7, some 100⟩], 2⟩
        (some 1) 250 = (s', PauseOutcome.stopped 1) ∧
      ({ time_id := 1, account_id := 1, memo := "",
         status := Status.paused, timedelta := 157,
         datetime := some 250 } : Timer) ∈ s'.timers :=
  timer_pause_running_updates ⟨[⟨1, 1, "", Status.running, 7, some 100⟩], 2⟩
    ⟨1, 1, "", Status.running, 7, some 100⟩ 100 250
    (by decide) (by decide) (by decide) (by decide) (by decide)

/-- C4 counterexample: a `paused` timer whose `datetime` was retained
(as `pause` and `add_timer` always leave it) is NOT paused idempotently:
a second `pause` at `now = 200` adds `now - datetime = 100` seconds again
and reports `stopped`, not `already paused` — the store changes. -/
theorem pause_paused_with_timestamp_not_noop :
    timer_pause ⟨[⟨1, 1, "", Status.paused, 0, some 100⟩], 2⟩ (some 1) 200
      = (⟨[⟨1, 1, "", Status.paused, 100, some 200⟩], 2⟩,
         PauseOutcome.stopped 1) ∧
    (timer_pause ⟨[⟨1, 1, "", Status.paused, 0, some 100⟩], 2⟩
        (some 1) 200).1
      ≠ ⟨[⟨1, 1, "", Status.paused, 0, some 100⟩], 2⟩ := by
  decide

/-- C4 amended: `pause` is a no-op reported as `already paused` exactly for
timers whose recorded timestamp is null (the code tests `datetime is None`,
not the status); a timer with a non-null timestamp — paused or not — gets
`now - datetime` added to its accumulated seconds again. -/
theorem timer_pause_null_timestamp_noop (s : Store) (t : Timer) (now : Int)
    (hmem : t ∈ s.timers)
    (hnd : (s.timers.map Timer.time_id).Nodup)
    (hid : t.time_id ≠ 0)
    (hdt : t.datetime = none) :
    timer_pause s (some t.time_id) now
      = (s, PauseOutcome.alreadyPaused t.time_id) := by
  simp only [timer_pause, Option.getD_some]
  rw [if_pos hid]
  simp only [find?_time_id_of_nodup hnd hmem, hdt]

/-- Witness for the amended C4 at a concrete paused timer with null
timestamp. -/
theorem timer_pause_null_timestamp_noop_witness :
    timer_pause ⟨[⟨1, 1, "m", Status.paused, 5, none⟩], 2⟩ (some 1) 300
      = (⟨[⟨1, 1, "m", Status.paused, 5, none⟩], 2⟩,
         PauseOutcome.alreadyPaused 1) :=
  timer_pause_null_timestamp_noop
    ⟨[⟨1, 1, "m", Status.paused, 5, none⟩], 2⟩
    ⟨1, 1, "m", Status.paused, 5, none⟩ 300
    (by decide) (by decide) (by decide) (by decide)

/-- C6 counterexample: a `start` call whose timer reference does not
resolve (position not in `pos_to_id`) reports invalid but does NOT leave
the store unchanged — the unconditional first statement already paused the
running timer, adding `now - running_since` and moving its timestamp. -/
theorem invalid_start_pauses_running_timer :
    timer_start ⟨[⟨1, 1, "", Status.running, 0, some 100⟩], 2⟩ none 200 0
      = some (⟨[⟨1, 1, "", Status.paused, 100, some 200⟩], 2⟩,
              StartOutcome.invalidPosition) ∧
    (⟨[⟨1, 1, "", Status.paused, 100, some 200⟩], 2⟩ : Store)
      ≠ ⟨[⟨1, 1, "", Status.running, 0, some 100⟩], 2⟩ := by
  decide

/-- C6 amended: a `start` call with an unresolvable timer reference
reports invalid and changes nothing EXCEPT that it first pauses any
currently running timer (banking its elapsed time, timestamp set to
`now`); in particular, when no timer is running the store is completely
unchanged. -/
theorem timer_start_invalid_only_pauses_running (s : Store)
    (now today : Int) (hwf : RunningHasStart s) :
    timer_start s none now today
      = some ({ timers := s.timers.map (stopRunningView now),
                nextId := s.nextId },
              StartOutcome.invalidPosition) ∧
    ((∀ u ∈ s.timers, u.status ≠ Status.running) →
      timer_start s none now today
        = some (s, StartOutcome.invalidPosition)) := by
  have hstop := @stopRunningRows_eq_map now s.timers hwf
  constructor
  · simp only [timer_start, hstop]
    rfl
  · intro hnone
    have hmapid : s.timers.map (stopRunningView now) = s.timers := by
      rw [List.map_congr_left
            (fun a ha => stopRunningView_of_not_running (hnone a ha))]
      simp
    simp only [timer_start, hstop, hmapid]
    rfl

/-- Witness for the amended C6: a concrete invalid `start` call on a store
with one running timer: only that timer is paused. -/
theorem timer_start_invalid_only_pauses_running_witness :
    timer_start ⟨[⟨1, 1, "w", Status.running, 3, some 50⟩], 2⟩ none 80 0
      = some (⟨[⟨1, 1, "w", Status.paused, 33, some 80⟩], 2⟩,
              StartOutcome.invalidPosition) ∧
    ((∀ u ∈ (⟨[⟨1, 1, "w", Status.running, 3, some 50⟩], 2⟩ : Store).timers,
        u.status ≠ Status.running) →
      timer_start ⟨[⟨1, 1, "w", Status.running, 3, some 50⟩], 2⟩ none 80 0
        = some (⟨[⟨1, 1, "w", Status.running, 3, some 50⟩], 2⟩,
                StartOutcome.invalidPosition)) :=
  timer_start_invalid_only_pauses_running
    ⟨[⟨1, 1, "w", Status.running, 3, some 50⟩], 2⟩ 80 0
    (by unfold RunningHasStart; decide)

/-- C1 counterexample: a timer that is RUNNING with a recorded start
timestamp from a previous day (`-50 < today = 0`) does not roll over:
the unconditional pause pass first moves its timestamp to `now`, so
`start` resumes it in place — no new Timer is created, the original is
not marked inactive, and its accumulated seconds change from 3600 to
3750. -/
theorem running_stale_timer_resumes_in_place :
    timer_start ⟨[⟨1, 1, "m", Status.running, 3600, some (-50)⟩], 2⟩
        (some 1) 100 0
      = some (⟨[⟨1, 1, "m", Status.running, 3750, some 100⟩], 2⟩,
              StartOutcome.resumed 1) ∧
    (∀ u ∈ [(⟨1, 1, "m", Status.running, 3750, some 100⟩ : Timer)],
      u.status ≠ Status.inactive) := by
  decide

/-- C1 amended: for a timer that is NOT currently running, whose recorded
start timestamp is non-null, non-zero and earlier than the start of the
current day, `start` creates a new Timer on the same account with the same
memo, status running, zero accumulated seconds and `running_since = now`,
and marks the original inactive with its accumulated seconds (and
timestamp) unchanged.  (A running stale timer is first paused in place,
which moves its timestamp to `now` and defeats the rollover test; a zero
timestamp is falsy in Python and also skips rollover.) -/
theorem timer_start_rollover (s : Store) (t : Timer) (d now today : Int)
    (hmem : t ∈ s.timers)
    (hnd : (s.timers.map Timer.time_id).Nodup)
    (hwf : RunningHasStart s)
    (hid : t.time_id ≠ 0)
    (hnr : t.status ≠ Status.running)
    (hd : t.datetime = some d) (hd0 : d ≠ 0) (hlt : d < today) :
    ∃ s', timer_start s (some t.time_id) now today
        = some (s', StartOutcome.rolledOver t.time_id s.nextId) ∧
      ({ time_id := s.nextId, account_id := t.account_id, memo := t.memo,
         status := Status.running, timedelta := 0,
         datetime := some now } : Timer) ∈ s'.timers ∧
      ({ t with status := Status.inactive } : Timer) ∈ s'.timers ∧
      ({ t with status := Status.inactive } : Timer).timedelta
        = t.timedelta := by
  have hstop := @stopRunningRows_eq_map now s.timers hwf
  have hvt : stopRunningView now t = t := stopRunningView_of_not_running hnr
  have hmem' : t ∈ s.timers.map (stopRunningView now) := by
    rw [← hvt]
    exact List.mem_map_of_mem _ hmem
  have hnd' :
      ((s.timers.map (stopRunningView now)).map Timer.time_id).Nodup := by
    rw [map_view_ids]
    exact hnd
  have hstale : staleStart t.datetime today = true := by
    rw [hd]
    simp [staleStart, hd0, hlt]
  refine ⟨{ timers :=
              ((s.timers.map (stopRunningView now)).map fun x =>
                if x.time_id == t.time_id then
                  { x with status := Status.inactive }
                else x) ++
              [{ time_id := s.nextId, account_id := t.account_id,
                 memo := t.memo, status := Status.running,
                 timedelta := 0, datetime := some now }],
            nextId := s.nextId + 1 }, ?_, ?_, ?_, rfl⟩
  · simp only [timer_start, hstop, Option.getD_some]
    rw [if_pos hid]
    simp only [find?_time_id_of_nodup hnd' hmem']
    rw [if_pos hstale]
  · apply List.mem_append_right
    simp
  · apply List.mem_append_left
    apply List.mem_map.mpr
    exact ⟨t, hmem', by simp⟩

/-- Witness for the amended C1: a concrete paused timer last started at
`-50` (the previous day relative to `today = 0`) rolls over at
`now = 100`. -/
theorem timer_start_rollover_witness :
    ∃ s', timer_start ⟨[⟨1, 1, "m", Status.paused, 3600, some (-50)⟩], 2⟩
        (some 1) 100 0 = some (s', StartOutcome.rolledOver 1 2) ∧
      (⟨2, 1, "m", Status.running, 0, some 100⟩ : Timer) ∈ s'.timers ∧
      (⟨1, 1, "m", Status.inactive, 3600, some (-50)⟩ : Timer)
        ∈ s'.timers ∧
      (⟨1, 1, "m", Status.inactive, 3600, some (-50)⟩ : Timer).timedelta
        = 3600 :=
  timer_start_rollover ⟨[⟨1, 1, "m", Status.paused, 3600, some (-50)⟩], 2⟩
    ⟨1, 1, "m", Status.paused, 3600, some (-50)⟩ (-50) 100 0
    (by decide) (by decide) (by unfold RunningHasStart; decide)
    (by decide) (by decide) (by decide) (by decide) (by decide)

/-! ## Claims about the `running_since` invariant (C5) -/

/-- C5 counterexample: already the store reached by a single `add_timer`
violates the "non-null iff running" invariant — the new timer is `paused`
yet its recorded timestamp is the (non-null) creation instant. -/
theorem reachable_paused_timer_with_timestamp :
    Reachable { timers := [{ time_id := 1, account_id := 1, memo := "",
                             status := Status.paused, timedelta := 0,
                             datetime := some 100 }],
                nextId := 2 } ∧
    ({ time_id := 1, account_id := 1, memo := "", status := Status.paused,
       timedelta := 0, datetime := some 100 } : Timer).status
        ≠ Status.running ∧
    ({ time_id := 1, account_id := 1, memo := "", status := Status.paused,
       timedelta := 0, datetime := some 100 } : Timer).datetime.isSome :=
  ⟨Reachable.add_timer ⟨[], 1⟩ 1 "" 100 Reachable.empty,
   by decide, by decide⟩

/-- C5 amended: in every reachable store only the forward direction of the
invariant holds — every running Timer has a non-null `running_since`;
paused and inactive Timers routinely retain a non-null timestamp
(`add_timer` stores the creation instant, `pause` the pause instant). -/
theorem reachable_running_has_start_inv :
    ∀ {s : Store}, Reachable s → RunningHasStart s := by
  intro s h
  induction h with
  | empty =>
    intro t ht _
    cases ht
  | add_timer s a m now _ ih =>
    intro t ht hr
    rcases List.mem_append.mp ht with h1 | h2
    · exact ih t h1 hr
    · rcases List.mem_singleton.mp h2 with rfl
      simp at hr
  | populate s a m td dt _ ih =>
    intro t ht hr
    rcases List.mem_append.mp ht with h1 | h2
    · exact ih t h1 hr
    · rcases List.mem_singleton.mp h2 with rfl
      simp at hr
  | start s s' tid now today o _ heq ih =>
    intro t ht hr
    unfold timer_start at heq
    cases hstop : stopRunningRows now s.timers with
    | none =>
      simp only [hstop] at heq
      cases heq
    | some ts =>
      simp only [hstop] at heq
      have hts := stopRunningRows_not_running hstop
      by_cases htid : tid.getD 0 ≠ 0
      · rw [if_pos htid] at heq
        cases hfind : ts.find? (fun x => x.time_id == tid.getD 0) with
        | none =>
          simp only [hfind, Option.some.injEq, Prod.mk.injEq] at heq
          obtain ⟨hs', -⟩ := heq
          subst hs'
          exact absurd hr (hts t ht)
        | some row =>
          simp only [hfind] at heq
          by_cases hstale : staleStart row.datetime today = true
          · rw [if_pos hstale] at heq
            simp only [Option.some.injEq, Prod.mk.injEq] at heq
            obtain ⟨hs', -⟩ := heq
            subst hs'
            rcases List.mem_append.mp ht with h1 | h2
            · obtain ⟨a, ha, rfl⟩ := List.mem_map.mp h1
              by_cases hm : (a.time_id == tid.getD 0) = true
              · rw [if_pos hm] at hr
                simp at hr
              · rw [if_neg hm] at hr
                exact absurd hr (hts a ha)
            · rcases List.mem_singleton.mp h2 with rfl
              rfl
          · rw [if_neg hstale] at heq
            simp only [Option.some.injEq, Prod.mk.injEq] at heq
            obtain ⟨hs', -⟩ := heq
            subst hs'
            obtain ⟨a, ha, rfl⟩ := List.mem_map.mp ht
            by_cases hm : (a.time_id == tid.getD 0) = true
            · rw [if_pos hm]
              rfl
            · rw [if_neg hm] at hr
              exact absurd hr (hts a ha)
      · rw [if_neg htid] at heq
        simp only [Option.some.injEq, Prod.mk.injEq] at heq
        obtain ⟨hs', -⟩ := heq
        subst hs'
        exact absurd hr (hts t ht)
  | pause s s' tid now o _ heq ih =>
    intro t ht hr
    simp only [timer_pause] at heq
    by_cases htid : tid.getD 0 ≠ 0
    · rw [if_pos htid] at heq
      cases hfind : s.timers.find? (fun x => x.time_id == tid.getD 0) with
      | none =>
        simp only [hfind, Prod.mk.injEq] at heq
        obtain ⟨hs', -⟩ := heq
        subst hs'
        exact ih t ht hr
      | some row =>
        simp only [hfind] at heq
        cases hdt : row.datetime with
        | none =>
          simp only [hdt, Prod.mk.injEq] at heq
          obtain ⟨hs', -⟩ := heq
          subst hs'
          exact ih t ht hr
        | some st =>
          simp only [hdt, Prod.mk.injEq] at heq
          obtain ⟨hs', -⟩ := heq
          subst hs'
          obtain ⟨a, ha, rfl⟩ := List.mem_map.mp ht
          by_cases hm : (a.time_id == tid.getD 0) = true
          · rw [if_pos hm]
            rfl
          · rw [if_neg hm] at hr ⊢
            exact ih a ha hr
    · rw [if_neg htid] at heq
      simp only [Prod.mk.injEq] at heq
      obtain ⟨hs', -⟩ := heq
      subst hs'
      exact ih t ht hr
  | archive s midnight _ ih =>
    intro t ht hr
    obtain ⟨a, ha, rfl⟩ := List.mem_map.mp ht
    have hpres : (archive_row midnight a).datetime = a.datetime := by
      unfold archive_row
      split
      · split <;> rfl
      · rfl
    have hstat : (archive_row midnight a).status = Status.running →
        a.status = Status.running := by
      unfold archive_row
      split
      · split
        · intro hx
          simp at hx
        · exact id
      · exact id
    rw [hpres]
    exact ih a ha (hstat hr)

/-- Witness for the amended C5 at a concrete reachable store holding a
running timer (created by `add_timer` then resumed by `timer_start`). -/
theorem reachable_running_has_start_inv_witness :
    RunningHasStart { timers := [{ time_id := 1, account_id := 1,
                                   memo := "", status := Status.running,
                                   timedelta := 0, datetime := some 200 }],
                      nextId := 2 } :=
  reachable_running_has_start_inv
    (Reachable.start
      ⟨[⟨1, 1, "", Status.paused, 0, some 100⟩], 2⟩
      ⟨[⟨1, 1, "", Status.running, 0, some 200⟩], 2⟩
      (some 1) 200 0 (StartOutcome.resumed 1)
      (Reachable.add_timer ⟨[], 1⟩ 1 "" 100 Reachable.empty)
      (by decide))

/-! ## Claims about duration sums and the weekly report (C7, C8) -/

/-- C7 counterexample: SQL `BETWEEN` is inclusive, so a timer starting
exactly at `endTs = 10` IS counted by the code's sum, while the spec's
half-open `[startTs, endTs)` would exclude it. -/
theorem sum_durations_includes_endpoint :
    sum_durations none 0 10 [⟨1, 1, "", Status.paused, 5, some 10⟩] = 5 ∧
    sumDurationsHalfOpenSpec none 0 10
        [⟨1, 1, "", Status.paused, 5, some 10⟩] = 0 ∧
    sum_durations none 0 10 [⟨1, 1, "", Status.paused, 5, some 10⟩]
      ≠ sumDurationsHalfOpenSpec none 0 10
          [⟨1, 1, "", Status.paused, 5, some 10⟩] := by
  decide

/-- C7 amended: the code's duration sum equals the spec's description with
the interval taken CLOSED on both ends (`startTs ≤ t ≤ endTs`, a timer
starting exactly at `endTs` included): sum of `timedelta` over all timers,
regardless of status, whose timestamp lies in the interval and whose
account matches when a filter is provided. -/
theorem sum_durations_eq_closed_spec :
    ∀ (acct : Option Nat) (lo hi : Int) (ts : List Timer),
      sum_durations acct lo hi ts = sumDurationsClosedSpec acct lo hi ts := by
  intro acct lo hi ts
  induction ts with
  | nil => rfl
  | cons t ts ih =>
    unfold sumDurationsClosedSpec at ih ⊢
    show (if acctFilter acct t && betweenFilter lo hi t then
            t.timedelta else 0) + sum_durations acct lo hi ts = _
    rw [List.filter_cons]
    by_cases h : (acctFilter acct t && betweenFilter lo hi t) = true
    · rw [if_pos h, if_pos h, List.map_cons, List.sum_cons, ih]
    · rw [if_neg h, if_neg h, ih]
      simp

theorem sum_durations_two (lo hi : Int) (t1 t2 : Timer) :
    sum_durations none lo hi [t1, t2] =
      (if betweenFilter lo hi t1 then t1.timedelta else 0) +
      (if betweenFilter lo hi t2 then t2.timedelta else 0) := by
  show (if acctFilter none t1 && betweenFilter lo hi t1 then
          t1.timedelta else 0) +
       ((if acctFilter none t2 && betweenFilter lo hi t2 then
          t2.timedelta else 0) + 0) = _
  simp [acctFilter]

theorem betweenFilter_mk (lo hi : Int) (idx acc : Nat) (m : String)
    (st : Status) (td dd : Int) :
    betweenFilter lo hi ⟨idx, acc, m, st, td, some dd⟩
      = (decide (lo ≤ dd) && decide (dd ≤ hi)) := rfl

theorem ite_band_decide {α : Sort _} {p q : Prop} [Decidable p]
    [Decidable q] (x y : α) :
    (if (decide p && decide q) = true then x else y)
      = if p ∧ q then x else y := by
  by_cases hp : p <;> by_cases hq : q <;> simp [hp, hq]

theorem weekStartOf_shift (W k : Int) (hW : pyWeekday W = 0)
    (hk0 : 0 ≤ k) (hk : k < 7) : weekStartOf (W + 86400 * k) = W := by
  unfold weekStartOf pyWeekday
  unfold pyWeekday at hW
  omega

/-- C8 counterexample: two timers on the same account, one starting Monday
01:00 (`349200`, accumulated 3600) and one starting exactly at Wednesday
midnight (`518400`, accumulated 7200) of the week of Monday 1970-01-05
(`345600`).  The week total is right, but the inclusive `BETWEEN` bounds
also count the Wednesday-midnight timer in Tuesday's day window, so the
report contains a Tuesday entry `(1, 7200)` although no timer starts on
Tuesday — refuting "no breakdown entries for the days of that week whose
total is zero". -/
theorem week_breakdown_midnight_edge :
    week_total 345600
      [⟨1, 1, "", Status.paused, 3600, some 349200⟩,
       ⟨2, 1, "", Status.paused, 7200, some 518400⟩] = 10800 ∧
    week_breakdown 345600
      [⟨1, 1, "", Status.paused, 3600, some 349200⟩,
       ⟨2, 1, "", Status.paused, 7200, some 518400⟩]
      = [(0, 3600), (1, 7200), (2, 7200)] ∧
    (1, 7200) ∈ week_breakdown 345600
      [⟨1, 1, "", Status.paused, 3600, some 349200⟩,
       ⟨2, 1, "", Status.paused, 7200, some 518400⟩] := by
  decide

/-- C8 amended: for two timers on the same account with accumulated
seconds 3600 and 7200, one starting on the Monday of an ISO week and one
starting on the Wednesday strictly after Wednesday midnight (the code's
inclusive `BETWEEN` bounds would otherwise also count a midnight timestamp
in the preceding day), `report_week` on any date of that week reports a
week total of 10800 and exactly the breakdown entries Monday 3600 and
Wednesday 7200 — days with zero total are omitted. -/
theorem report_week_scenario (W k d1 d2 : Int) (id1 id2 a : Nat)
    (m1 m2 : String) (st1 st2 : Status)
    (hW : pyWeekday W = 0) (hk0 : 0 ≤ k) (hk : k < 7)
    (h1a : W ≤ d1) (h1b : d1 < W + 86400)
    (h2a : W + 2 * 86400 < d2) (h2b : d2 < W + 3 * 86400) :
    week_total (W + 86400 * k)
      [⟨id1, a, m1, st1, 3600, some d1⟩,
       ⟨id2, a, m2, st2, 7200, some d2⟩] = 10800 ∧
    week_breakdown (W + 86400 * k)
      [⟨id1, a, m1, st1, 3600, some d1⟩,
       ⟨id2, a, m2, st2, 7200, some d2⟩]
      = [(0, 3600), (2, 7200)] := by
  have hws := weekStartOf_shift W k hW hk0 hk
  have hday : ∀ i : Int, day_total W i
      [⟨id1, a, m1, st1, 3600, some d1⟩,
       ⟨id2, a, m2, st2, 7200, some d2⟩] =
      (if W + 86400 * i ≤ d1 ∧ d1 ≤ W + 86400 * (i + 1) then 3600 else 0) +
      (if W + 86400 * i ≤ d2 ∧ d2 ≤ W + 86400 * (i + 1) then 7200
       else 0) := by
    intro i
    unfold day_total
    rw [sum_durations_two, betweenFilter_mk, betweenFilter_mk,
        ite_band_decide, ite_band_decide]
  constructor
  · unfold week_total
    rw [hws, sum_durations_two, betweenFilter_mk, betweenFilter_mk,
        ite_band_decide, ite_band_decide]
    rw [if_pos ⟨h1a, by omega⟩, if_pos ⟨by omega, by omega⟩]
    rfl
  · unfold week_breakdown
    simp only [hws]
    have e0 : day_total W 0
        [⟨id1, a, m1, st1, 3600, some d1⟩,
         ⟨id2, a, m2, st2, 7200, some d2⟩] = 3600 := by
      rw [hday]
      split_ifs <;> omega
    have e1 : day_total W 1
        [⟨id1, a, m1, st1, 3600, some d1⟩,
         ⟨id2, a, m2, st2, 7200, some d2⟩] = 0 := by
      rw [hday]
      split_ifs <;> omega
    have e2 : day_total W 2
        [⟨id1, a, m1, st1, 3600, some d1⟩,
         ⟨id2, a, m2, st2, 7200, some d2⟩] = 7200 := by
      rw [hday]
      split_ifs <;> omega
    have e3 : day_total W 3
        [⟨id1, a, m1, st1, 3600, some d1⟩,
         ⟨id2, a, m2, st2, 7200, some d2⟩] = 0 := by
      rw [hday]
      split_ifs <;> omega
    have e4 : day_total W 4
        [⟨id1, a, m1, st1, 3600, some d1⟩,
         ⟨id2, a, m2, st2, 7200, some d2⟩] = 0 := by
      rw [hday]
      split_ifs <;> omega
    have e5 : day_total W 5
        [⟨id1, a, m1, st1, 3600, some d1⟩,
         ⟨id2, a, m2, st2, 7200, some d2⟩] = 0 := by
      rw [hday]
      split_ifs <;> omega
    have e6 : day_total W 6
        [⟨id1, a, m1, st1, 3600, some d1⟩,
         ⟨id2, a, m2, st2, 7200, some d2⟩] = 0 := by
      rw [hday]
      split_ifs <;> omega
    have r7 : List.range 7 = [0, 1, 2, 3, 4, 5, 6] := rfl
    rw [r7]
    simp only [List.filterMap_cons, List.filterMap_nil, Nat.cast_zero,
      Nat.cast_one, Nat.cast_ofNat, e0, e1, e2, e3, e4, e5, e6]
    norm_num

/-- Witness for the amended C8: concrete week of Monday 1970-01-05,
Monday timer at 01:00, Wednesday timer at 01:00, report date Wednesday. -/
theorem report_week_scenario_witness :
    week_total (345600 + 86400 * 2)
      [⟨1, 1, "", Status.paused, 3600, some 349200⟩,
       ⟨2, 1, "", Status.paused, 7200, some 522000⟩] = 10800 ∧
    week_breakdown (345600 + 86400 * 2)
      [⟨1, 1, "", Status.paused, 3600, some 349200⟩,
       ⟨2, 1, "", Status.paused, 7200, some 522000⟩]
      = [(0, 3600), (2, 7200)] :=
  report_week_scenario 345600 2 349200 522000 1 2 1 "" ""
    Status.paused Status.paused (by decide) (by decide) (by decide)
    (by decide) (by decide) (by decide) (by decide)

end TimeMate
